import Mathlib

/-!
Verification of the eden filesystem sources against their specification.

The development shallowly embeds the C++ sources:

* `src/eden/fs/inodes/FileData.cpp` (file materialization, read, write, SHA-1 xattr)
* `src/eden/fs/inodes/TreeEntryFileInode.cpp` (open, listxattr, getxattr)
* `src/eden/fs/service/EdenServiceHandler.cpp` (getFilesChangedSince)
* `src/eden/fuse/privhelper/PrivHelper.cpp` (sendAndRecv transaction-id handling)
* `src/eden/fs/inodes/DirstatePersistence.cpp` (load)
* `src/eden/fs/model/git/test/GitTreeTest.cpp` (git tree wire format, via the spec)

Bytes are `Nat` values below 256, byte strings are `List Nat`, and machine
integers are `Nat` with explicit reduction modulo `2 ^ 32` where the C++
performs 32-bit arithmetic.
-/

/-! ## Byte-level primitives and SHA-1 -/

/-- Reduce a number to a 32-bit word, as C++ `uint32_t` arithmetic does. -/
def w32 (n : Nat) : Nat := n % 4294967296

/-- Rotate the 32-bit word `n` left by `b` bits. -/
def rotl (b n : Nat) : Nat := w32 ((n <<< b) ||| (n >>> (32 - b)))

/-- Big-endian bytes of `n`, `k` bytes wide. -/
def beBytes (k n : Nat) : List Nat :=
  (List.range k).map (fun i => n / 2 ^ (8 * (k - 1 - i)) % 256)

/-- SHA-1 message padding: `0x80`, zeros to 56 mod 64, then the bit length. -/
def padMsg (msg : List Nat) : List Nat :=
  let len := msg.length
  let zeros := (120 - (len + 1) % 64) % 64
  msg ++ [0x80] ++ List.replicate zeros 0 ++ beBytes 8 (8 * len)

/-- Combine a byte list into big-endian 32-bit words. -/
def toWords : List Nat → List Nat
  | a :: b :: c :: d :: rest => (((a * 256 + b) * 256 + c) * 256 + d) :: toWords rest
  | _ => []

/-- One step of the SHA-1 message-schedule extension. -/
def extendStep (w : List Nat) : List Nat :=
  let n := w.length
  w ++ [rotl 1 (w.getD (n - 3) 0 ^^^ w.getD (n - 8) 0 ^^^
                w.getD (n - 14) 0 ^^^ w.getD (n - 16) 0)]

/-- Iterate the message-schedule extension. -/
def extendN : Nat → List Nat → List Nat
  | 0, w => w
  | n + 1, w => extendN n (extendStep w)

/-- SHA-1 round constants. -/
def sha1K (t : Nat) : Nat :=
  if t < 20 then 0x5A827999
  else if t < 40 then 0x6ED9EBA1
  else if t < 60 then 0x8F1BBCDC
  else 0xCA62C1D6

/-- SHA-1 round functions (choice, parity, majority, parity). -/
def sha1F (t b c d : Nat) : Nat :=
  if t < 20 then (b &&& c) ||| ((b ^^^ 4294967295) &&& d)
  else if t < 40 then b ^^^ c ^^^ d
  else if t < 60 then (b &&& c) ||| (b &&& d) ||| (c &&& d)
  else b ^^^ c ^^^ d

/-- The five 32-bit words of SHA-1 chaining state. -/
abbrev Sha1State := Nat × Nat × Nat × Nat × Nat

/-- One SHA-1 compression round. -/
def sha1Round (st : Sha1State) (tw : Nat × Nat) : Sha1State :=
  let (a, b, c, d, e) := st
  let (t, wt) := tw
  let temp := w32 (rotl 5 a + sha1F t b c d + e + sha1K t + wt)
  (temp, a, rotl 30 b, c, d)

/-- Process one 64-byte block. -/
def processBlock (h : Sha1State) (block : List Nat) : Sha1State :=
  let w80 := extendN 64 (toWords block)
  let (a, b, c, d, e) := ((List.range 80).zip w80).foldl sha1Round h
  let (h0, h1, h2, h3, h4) := h
  (w32 (h0 + a), w32 (h1 + b), w32 (h2 + c), w32 (h3 + d), w32 (h4 + e))

/-- Split a byte list into 64-byte chunks; the fuel argument bounds recursion. -/
def chunks64 : Nat → List Nat → List (List Nat)
  | 0, _ => []
  | _, [] => []
  | fuel + 1, l => l.take 64 :: chunks64 fuel (l.drop 64)

/-- SHA-1 digest (20 bytes) of a byte list. -/
def sha1Bytes (msg : List Nat) : List Nat :=
  let padded := padMsg msg
  let (h0, h1, h2, h3, h4) :=
    (chunks64 padded.length padded).foldl processBlock
      (0x67452301, 0xEFCDAB89, 0x98BADCFE, 0x10325476, 0xC3D2E1F0)
  beBytes 4 h0 ++ beBytes 4 h1 ++ beBytes 4 h2 ++ beBytes 4 h3 ++ beBytes 4 h4

/-- Value of a lowercase hexadecimal digit character. -/
def hexVal (c : Char) : Nat := if c ≤ '9' then c.toNat - 48 else c.toNat - 87

/-- Combine a list of hex-digit values pairwise into bytes. -/
def pairUp : List Nat → List Nat
  | a :: b :: r => (16 * a + b) :: pairUp r
  | _ => []

/-- Bytes denoted by a lowercase hex string, e.g. a 40-char object id. -/
def hexBytes (s : String) : List Nat := pairUp (s.data.map hexVal)

/-- Bytes of an ASCII string. -/
def asciiBytes (s : String) : List Nat := s.data.map Char.toNat

/-! ## Error kinds

The spec's stable error identities (section 7).  `ioError` carries the errno;
`internalError` stands for `Internal` (C++ `std::runtime_error`). -/

inductive EdenErr
  | notFound
  | invalidArgument
  | outOfRange
  | malformedObject
  | ioError (errno : Nat)
  | internalError
deriving DecidableEq, Repr

/-! ## Git tree object model

The tree (de)serializer itself (`GitTree.cpp`) is not among the sources; only
its unit test `GitTreeTest.cpp` is.  The definitions in this section are
therefore modelled from the spec's description of the git tree wire format
(section 3) and are checked against the concrete byte strings and expectations
of `GitTreeTest.cpp`. -/

/-- File types appearing in tree entries. -/
inductive FileType
  | regularFile
  | symlink
  | directory
deriving DecidableEq, Repr

/-- A git tree entry: 20-byte object id, name bytes, type and owner perm bits. -/
structure TreeEntry where
  hash : List Nat
  name : List Nat
  fileType : FileType
  ownerPermissions : Nat
deriving DecidableEq, Repr

/-- Modelled from the spec: the recognized git modes, as ASCII octal strings.
`40000` directory perms 0b111, `100644` regular 0b110, `100755` regular 0b111,
`120000` symlink 0b111. -/
def modeBytes (ft : FileType) (p : Nat) : Option (List Nat) :=
  if ft = .directory ∧ p = 7 then some (asciiBytes "40000")
  else if ft = .regularFile ∧ p = 6 then some (asciiBytes "100644")
  else if ft = .regularFile ∧ p = 7 then some (asciiBytes "100755")
  else if ft = .symlink ∧ p = 7 then some (asciiBytes "120000")
  else none

/-- Inverse of `modeBytes`: the entry type and perms a recognized mode denotes. -/
def modeOfBytes (b : List Nat) : Option (FileType × Nat) :=
  if b = asciiBytes "40000" then some (.directory, 7)
  else if b = asciiBytes "100644" then some (.regularFile, 6)
  else if b = asciiBytes "100755" then some (.regularFile, 7)
  else if b = asciiBytes "120000" then some (.symlink, 7)
  else none

/-- A valid tree entry: a 20-byte hash, a nonempty name free of `NUL` and `/`,
byte-valued contents, and a recognized (type, perms) combination. -/
def validEntry (e : TreeEntry) : Bool :=
  e.hash.length == 20 && e.hash.all (· < 256) &&
  !e.name.isEmpty && e.name.all (fun b => b ≠ 0 && b ≠ 47 && b < 256) &&
  (modeBytes e.fileType e.ownerPermissions).isSome

/-- Sort key of the git tree ordering: directory names compare as if they had a
trailing separator. -/
def treeOrderKey (e : TreeEntry) : List Nat :=
  e.name ++ (if e.fileType = .directory then [47] else [])

/-- Byte-wise lexicographic comparison. -/
def bytesLE : List Nat → List Nat → Bool
  | [], _ => true
  | _ :: _, [] => false
  | a :: as, b :: bs => if a < b then true else if b < a then false else bytesLE as bs

/-- The git tree entry ordering. -/
def TreeEntry.le (a b : TreeEntry) : Prop :=
  bytesLE (treeOrderKey a) (treeOrderKey b) = true

instance : DecidableRel TreeEntry.le := fun a b =>
  inferInstanceAs (Decidable (_ = true))

/-- Serialized bytes of one entry: `<octal-mode> <name>\0<20-byte-hash>`. -/
def serializeEntry (e : TreeEntry) : List Nat :=
  (modeBytes e.fileType e.ownerPermissions).getD [] ++ [32] ++ e.name ++ [0] ++ e.hash

/-- Concatenated serialization of a list of entries. -/
def catEntryBytes : List TreeEntry → List Nat
  | [] => []
  | e :: es => serializeEntry e ++ catEntryBytes es

/-- Base-10 digits of `n`, least significant first; the fuel argument bounds
recursion (`fuel = n` suffices). -/
def decDigitsRev (fuel n : Nat) : List Nat :=
  match fuel with
  | 0 => []
  | f + 1 => if n = 0 then [] else n % 10 :: decDigitsRev f (n / 10)

/-- ASCII decimal representation of `n`. -/
def decimalBytes (n : Nat) : List Nat :=
  if n = 0 then [48] else ((decDigitsRev n n).reverse).map (· + 48)

/-- Modelled from the spec: the `GitTreeSerializer` (`addEntry` + `finalize`,
absent from the sources).  Entries are sorted by the tree ordering, serialized
back to back, and prefixed with the `tree <decimal-length>\0` header. -/
def serializeGitTree (entries : List TreeEntry) : List Nat :=
  let body := catEntryBytes (List.insertionSort TreeEntry.le entries)
  asciiBytes "tree " ++ decimalBytes body.length ++ [0] ++ body

/-- Split a byte list at the first occurrence of `sep`, returning both halves
(without the separator), or `none` when `sep` does not occur. -/
def splitByte (sep : Nat) : List Nat → Option (List Nat × List Nat)
  | [] => none
  | b :: rest =>
    if b = sep then some ([], rest)
    else (splitByte sep rest).map (fun pr => (b :: pr.1, pr.2))

/-- Split a byte list at its first `NUL`, returning both halves. -/
def splitNul : List Nat → Option (List Nat × List Nat) := splitByte 0

/-- Split a byte list at its first space, returning both halves. -/
def splitSpace : List Nat → Option (List Nat × List Nat) := splitByte 32

/-- Whether a byte is an ASCII decimal digit. -/
def isDecDigit (b : Nat) : Bool := 48 ≤ b && b ≤ 57

/-- Numeric value of a list of ASCII decimal digits. -/
def parseDecimal (l : List Nat) : Nat := l.foldl (fun acc d => acc * 10 + (d - 48)) 0

/-- Parse consecutive serialized entries until the body is exhausted; the fuel
argument bounds recursion (one unit per entry suffices). -/
def parseEntries : Nat → List Nat → Option (List TreeEntry)
  | _, [] => some []
  | 0, _ :: _ => none
  | fuel + 1, bytes =>
    match splitSpace bytes with
    | none => none
    | some (modeB, rest1) =>
      match modeOfBytes modeB with
      | none => none
      | some (ft, perms) =>
        match splitNul rest1 with
        | none => none
        | some (name, rest2) =>
          if rest2.length < 20 then none
          else
            match parseEntries fuel (rest2.drop 20) with
            | none => none
            | some es => some (⟨rest2.take 20, name, ft, perms⟩ :: es)

/-- Modelled from the spec: `deserializeGitTree` (absent from the sources).
Requires the exact `tree <decimal-length>\0` header, a body of exactly the
declared length, and a sequence of well-formed entries; any deviation is a
`MalformedObject` error.  Checked against every input of
`GitTreeTest.cpp:testBadDeserialize`. -/
def deserializeGitTree (bytes : List Nat) : Except EdenErr (List TreeEntry) :=
  if bytes.take 5 ≠ asciiBytes "tree " then .error .malformedObject
  else
    match splitNul (bytes.drop 5) with
    | none => .error .malformedObject
    | some (lenB, body) =>
      if lenB.isEmpty || !lenB.all isDecDigit then .error .malformedObject
      else if body.length ≠ parseDecimal lenB then .error .malformedObject
      else
        match parseEntries body.length body with
        | none => .error .malformedObject
        | some es => .ok es

/-! ## FileData (`src/eden/fs/inodes/FileData.cpp`)

The manipulated state combines `FileInode::State` (`hash`) with `FileData`'s
own fields (`file_`, `blob_`, `sha1Valid_`).  The overlay file is modelled by
its contents together with the `user.sha1` extended attribute stored on it;
the object store is a partial map from object ids to blob contents. -/

/-- State of one file inode and its `FileData`. -/
structure FileData.State where
  hash : Option (List Nat)
  file : Option (List Nat)
  xattrSha1 : Option (List Nat)
  blob : Option (List Nat × List Nat)
  sha1Valid : Bool
deriving DecidableEq, Repr

/-- An object store, mapping a 20-byte id to blob contents when present. -/
def ObjectStore : Type := List Nat → Option (List Nat)

/-- The store's recorded SHA-1 for a blob (`ObjectStore::getSha1ForBlob`),
which is the SHA-1 of the blob contents. -/
def ObjectStore.getSha1ForBlob (store : ObjectStore) (h : List Nat) : Option (List Nat) :=
  (store h).map sha1Bytes

/-- `FileData::storeSha1`: record the digest in the overlay file's `user.sha1`
attribute and mark it valid.  (The C++ catch-and-log path for a failing
`fsetxattr` is an environment I/O failure outside this model.) -/
def FileData.storeSha1 (st : FileData.State) (sha : List Nat) : FileData.State :=
  { st with xattrSha1 := some sha, sha1Valid := true }

/-- `FileData::materializeForWrite(openFlags)`, with `otrunc` the `O_TRUNC`
bit.  `none` models the `CHECK` failures and a failed blob fetch. -/
def FileData.materializeForWrite (store : ObjectStore) (st : FileData.State)
    (otrunc : Bool) : Option FileData.State :=
  match st.file with
  | some _ =>
    if st.hash.isSome then none
    else if otrunc then
      some (FileData.storeSha1 { st with sha1Valid := false, file := some [] }
        (sha1Bytes []))
    else some st
  | none =>
    match st.hash with
    | none => none
    | some h =>
      if otrunc then
        let st1 := FileData.storeSha1 { st with file := some [] } (sha1Bytes [])
        some { st1 with blob := none, hash := none }
      else
        match store h with
        | none => none
        | some contents =>
          let st1 := { st with blob := some (h, contents), file := some contents }
          let st2 := FileData.storeSha1 st1 (sha1Bytes contents)
          some { st2 with blob := none, hash := none }

/-- Positional-write semantics of `pwrite`: bytes `[off, off + data.length)`
are replaced, a gap past EOF is zero-filled, the rest is untouched. -/
def pwriteBytes (contents : List Nat) (off : Nat) (data : List Nat) : List Nat :=
  contents.take off ++ List.replicate (off - contents.length) 0 ++ data ++
    contents.drop (off + data.length)

/-- `FileData::write(data, off)`: `EINVAL` when there is no overlay file (the
inode is not materialized for write, and nothing is changed); otherwise the
cached SHA-1 is invalidated and the bytes are written positionally. -/
def FileData.write (st : FileData.State) (data : List Nat) (off : Nat) :
    Except EdenErr (FileData.State × Nat) :=
  match st.file with
  | none => .error .invalidArgument
  | some contents =>
    .ok ({ st with sha1Valid := false, file := some (pwriteBytes contents off data) },
      data.length)

/-- `FileData::readIntoBuffer(size, off)`: `pread` on the overlay file when
materialized; otherwise a slice of the blob contents, empty past EOF.  `none`
models the `CHECK(blob_)` failure. -/
def FileData.readIntoBuffer (st : FileData.State) (size off : Nat) :
    Option (List Nat) :=
  match st.file with
  | some contents => some ((contents.drop off).take size)
  | none =>
    match st.blob with
    | none => none
    | some (_, contents) =>
      if contents.length < off then some []
      else some ((contents.drop off).take size)

/-- `FileData::flush`: when an overlay file exists and the cached SHA-1 is
invalid, recompute the digest of the contents and store it as the xattr. -/
def FileData.flush (st : FileData.State) : FileData.State :=
  match st.file with
  | some contents => if st.sha1Valid then st else FileData.storeSha1 st (sha1Bytes contents)
  | none => st

/-! ## Journal -/

/-- One journal delta (`JournalDelta`), newest-first linked through the list
that carries it. -/
structure JournalDelta where
  fromSequence : Nat
  toSequence : Nat
  fromHash : List Nat
  toHash : List Nat
  changedFilesInOverlay : List String
deriving DecidableEq, Repr

/-- Modelled from the spec: `Journal.record` (absent from the sources) appends
a delta with `to_sequence = previous.to_sequence + 1` (or 1 if empty) and
`from_sequence + 1 = to_sequence`. -/
def Journal.record (j : List JournalDelta) (fromH toH : List Nat)
    (changedPaths : List String) : List JournalDelta :=
  let prevTo := match j with | [] => 0 | d :: _ => d.toSequence
  { fromSequence := prevTo, toSequence := prevTo + 1, fromHash := fromH,
    toHash := toH, changedFilesInOverlay := changedPaths } :: j

/-- A journal cursor (`JournalPosition`). -/
structure JournalPosition where
  mountGeneration : Nat
  sequenceNumber : Nat
  snapshotHash : List Nat
deriving DecidableEq, Repr

/-- Result of `getFilesChangedSince` (`FileDelta`).  The C++ accumulates paths
in an `unordered_set`; here the set is a duplicate-free list and claims about
it are stated via membership. -/
structure FileDelta where
  fromPosition : JournalPosition
  toPosition : JournalPosition
  paths : List String
deriving DecidableEq, Repr

/-- Insert a path into the accumulated set unless already present. -/
def insertPath (s : List String) (p : String) : List String :=
  if p ∈ s then s else s ++ [p]

/-- Insert each of `ps` into the accumulated set. -/
def insertPaths (s : List String) (ps : List String) : List String :=
  ps.foldl insertPath s

/-- The delta-list walk of `EdenServiceHandler::getFilesChangedSince`: follow
`previous` links until a delta with `toSequence ≤ S` is reached, accumulating
changed paths and updating the reported from-position. -/
def walkDeltas (sNum gen : Nat) :
    List JournalDelta → List String → JournalPosition → List String × JournalPosition
  | [], acc, fromPos => (acc, fromPos)
  | d :: rest, acc, fromPos =>
    if d.toSequence ≤ sNum then (acc, fromPos)
    else
      walkDeltas sNum gen rest (insertPaths acc d.changedFilesInOverlay)
        { mountGeneration := gen, sequenceNumber := d.fromSequence,
          snapshotHash := d.fromHash }

/-- `EdenServiceHandler::getFilesChangedSince`.  The journal's latest delta and
the chain of older deltas behind it are passed explicitly (`getLatest` and the
`previous` links); `gen` is the mount's current generation. -/
def EdenServiceHandler.getFilesChangedSince (gen : Nat) (latest : JournalDelta)
    (older : List JournalDelta) (fromPos : JournalPosition) :
    Except EdenErr FileDelta :=
  if fromPos.mountGeneration ≠ gen then .error .outOfRange
  else
    let toPos : JournalPosition :=
      { mountGeneration := gen, sequenceNumber := latest.toSequence,
        snapshotHash := latest.toHash }
    let walked := walkDeltas fromPos.sequenceNumber gen (latest :: older) [] toPos
    .ok { fromPosition := walked.2, toPosition := toPos, paths := walked.1 }

/-! ## TreeEntryFileInode (`src/eden/fs/inodes/TreeEntryFileInode.cpp`) -/

/-- The single user-visible extended attribute name. -/
def kXattrSha1 : String := "user.sha1"

/-- `TreeEntryFileInode::listxattr`: the inode's tree entry when loaded from a
tree (`entry_`, absent for purely overlay-backed inodes).  Only regular files
report the `user.sha1` attribute. -/
def TreeEntryFileInode.listxattr (entry : Option TreeEntry) : List String :=
  match entry with
  | some e => if e.fileType = .regularFile then [kXattrSha1] else []
  | none => []

/-- `TreeEntryFileInode::getxattr`: `some digest` models the hex digest string
returned for `user.sha1` on a regular file; `none` models the empty string
returned in every other case. -/
def TreeEntryFileInode.getxattr (store : ObjectStore) (entry : Option TreeEntry)
    (name : String) : Option (List Nat) :=
  match entry with
  | none => none
  | some e =>
    if name ≠ kXattrSha1 then none
    else if e.fileType ≠ .regularFile then none
    else store.getSha1ForBlob e.hash

/-! ## Privileged helper client (`src/eden/fuse/privhelper/PrivHelper.cpp`) -/

/-- A privhelper wire message, reduced to the fields `sendAndRecv` inspects. -/
structure PrivMessage where
  xid : Nat
  msgType : Nat
deriving DecidableEq, Repr

/-- The C++ `requestXid - 5` computed in `uint32_t` arithmetic: subtraction
wraps modulo `2 ^ 32`. -/
def u32sub5 (x : Nat) : Nat := (x + 4294967296 - 5) % 4294967296

/-- Outcome of the receive loop of `PrivHelper::sendAndRecv`: a reply with the
matching xid, a fatal mismatch (C++ throws `std::runtime_error`, surfaced as
`Internal`), or an exhausted reply stream (the C++ would block in `recvMsg`). -/
inductive PrivRecvResult
  | accepted (msg : PrivMessage) (remaining : List PrivMessage)
  | mismatchError (badXid : Nat)
  | exhausted
deriving DecidableEq, Repr

/-- The receive loop of `PrivHelper::sendAndRecv` over the stream of incoming
replies: accept the matching xid, discard a stale xid in
`[requestXid - 5, requestXid)` (computed in `uint32_t` arithmetic) for at most
5 retries, and fail on any other mismatch. -/
def PrivHelper.recvLoop (requestXid numRetries : Nat) :
    List PrivMessage → PrivRecvResult
  | [] => .exhausted
  | m :: rest =>
    if m.xid = requestXid then .accepted m rest
    else if m.xid < requestXid && u32sub5 requestXid ≤ m.xid && numRetries < 5 then
      PrivHelper.recvLoop requestXid (numRetries + 1) rest
    else .mismatchError m.xid

/-- Client-side state of the privhelper connection: the next transaction id
(`nextXid_`, initialized to 1). -/
structure PrivHelperClient where
  nextXid : Nat
deriving DecidableEq, Repr

/-- The freshly started privhelper client: xids start at 1. -/
def PrivHelperClient.initial : PrivHelperClient := { nextXid := 1 }

/-- `PrivHelper::sendAndRecv`: assign the next xid, send, then run the receive
loop.  Returns the successor state, the assigned xid and the loop's outcome. -/
def PrivHelper.sendAndRecv (client : PrivHelperClient) (replies : List PrivMessage) :
    PrivHelperClient × Nat × PrivRecvResult :=
  let requestXid := client.nextXid
  ({ nextXid := requestXid + 1 }, requestXid, PrivHelper.recvLoop requestXid 0 replies)

/-! ## Dirstate persistence (`src/eden/fs/inodes/DirstatePersistence.cpp`) -/

/-- The user-staged directives. -/
inductive UserStatusDirective
  | add
  | remove
deriving DecidableEq, Repr

/-- Modelled from the spec: the recognized `UserStatusDirective` wire values
(the thrift-generated `_UserStatusDirective_VALUES_TO_NAMES` table is not part
of the sources); the dirstate maps paths to `{ADD, REMOVE}`. -/
def directiveOfValue : Nat → Option UserStatusDirective
  | 0 => some .add
  | 1 => some .remove
  | _ => none

/-- The errno for a missing file. -/
def kENOENT : Nat := 2

/-- What reading the dirstate storage file yielded: a failure with an errno,
or the deserialized `path → raw directive value` map. -/
inductive DirstateReadResult
  | readFailure (errno : Nat)
  | contents (directives : List (String × Nat))
deriving DecidableEq, Repr

/-- Translate the deserialized directive map, rejecting any value outside the
recognized enum values (C++ throws `std::runtime_error`). -/
def loadDirectives : List (String × Nat) →
    Except EdenErr (List (String × UserStatusDirective))
  | [] => .ok []
  | (p, v) :: rest =>
    match directiveOfValue v with
    | some d => (loadDirectives rest).map (fun es => (p, d) :: es)
    | none => .error .internalError

/-- `DirstatePersistence::load`: a missing storage file yields an empty map,
any other read failure is an error, and the contents are translated entry by
entry. -/
def DirstatePersistence.load (r : DirstateReadResult) :
    Except EdenErr (List (String × UserStatusDirective)) :=
  match r with
  | .readFailure errno =>
    if errno = kENOENT then .ok [] else .error (.ioError errno)
  | .contents ds => loadDirectives ds

/-! ## Scenario glue for materialize-on-write (claim C1)

`FileData::materializeForWrite`, `write` and `flush` are in the sources; the
write-intent `open` wrapper of the inode layer and the journal recording on
close are not (`TreeEntryFileInode::open` in the sources belongs to an earlier
generation of the code that refuses write opens outright). -/

/-- Modelled from the spec: opening a file inode with write intent
materializes it (`materialize_for_write(inode, flags)`), the write goes to the
overlay file, and closing flushes the handle (recomputing the SHA-1 xattr) and
records one journal delta whose `changed_paths` contains the path to the
inode. -/
def openWriteClose (store : ObjectStore) (st : FileData.State) (data : List Nat)
    (off : Nat) (j : List JournalDelta) (path : String) (fromH toH : List Nat) :
    Option (FileData.State × List JournalDelta) :=
  match FileData.materializeForWrite store st false with
  | none => none
  | some st1 =>
    match FileData.write st1 data off with
    | .error _ => none
    | .ok (st2, _) => some (FileData.flush st2, Journal.record j fromH toH [path])

/-! ## Concrete fixtures

Test vectors taken from `GitTreeTest.cpp` and from the spec's end-to-end
scenarios, used by the theorems below and their witnesses. -/

deriving instance DecidableEq for Except

/-- The `README.md` entry of `GitTree.serializeTree`. -/
def entryReadme : TreeEntry :=
  ⟨hexBytes "c66788d87933862e2111a86304b705dd90bbd427", asciiBytes "README.md",
    .regularFile, 6⟩

/-- The `apm-rest-api.md` entry of `GitTree.serializeTree`. -/
def entryApmRestApi : TreeEntry :=
  ⟨hexBytes "a3c8e5c25e5523322f0ea490173dbdc1d844aefb", asciiBytes "apm-rest-api.md",
    .regularFile, 6⟩

/-- The `build-instructions` directory entry of `GitTree.serializeTree`. -/
def entryBuildInstructions : TreeEntry :=
  ⟨hexBytes "de0b8287939193ed239834991be65b96cbfc4508", asciiBytes "build-instructions",
    .directory, 7⟩

/-- The `contributing-to-packages.md` entry of `GitTree.serializeTree`. -/
def entryContributingToPackages : TreeEntry :=
  ⟨hexBytes "4576635ff317960be244b1c4adfe2a6eb2eb024d",
    asciiBytes "contributing-to-packages.md", .regularFile, 6⟩

/-- The `contributing.md` symlink entry of `GitTree.serializeTree`. -/
def entryContributing : TreeEntry :=
  ⟨hexBytes "44fcc63439371c8c829df00eec6aedbdc4d0e4cd", asciiBytes "contributing.md",
    .symlink, 7⟩

/-- The five entries of the spec's scenario 2 (`GitTree.serializeTree`). -/
def scenario2Entries : List TreeEntry :=
  [entryReadme, entryApmRestApi, entryBuildInstructions,
   entryContributingToPackages, entryContributing]

/-- The expected object id of the scenario-2 tree. -/
def scenario2Hash : List Nat := hexBytes "013b7865a6da317bc8d82c7225eb93615f1b1eca"

/-- A 20-byte blob id used in the materialize-on-write witness. -/
def blobIdC1 : List Nat := hexBytes "c66788d87933862e2111a86304b705dd90bbd427"

/-- An object store holding exactly the `"hello\n"` blob under `blobIdC1`. -/
def storeC1 : ObjectStore :=
  fun k => if k = blobIdC1 then some (asciiBytes "hello\n") else none

/-- An unmaterialized file inode state referencing `blobIdC1`. -/
def stateC1 : FileData.State :=
  { hash := some blobIdC1, file := none, xattrSha1 := none, blob := none,
    sha1Valid := false }

/-- The scenario-6 journal: deltas with changed paths `{a}`, `{b}`, `{a, c}`. -/
def journalC5 : List JournalDelta :=
  Journal.record (Journal.record (Journal.record [] [] [] ["a"]) [] [] ["b"])
    [] [] ["a", "c"]

/-- The latest delta of the scenario-6 journal. -/
def journalC5Latest : JournalDelta := journalC5.headD ⟨0, 0, [], [], []⟩

/-- The older deltas of the scenario-6 journal, behind the latest. -/
def journalC5Older : List JournalDelta := journalC5.tail

/-! ## Theorems -/

/-- C6: for every cursor whose mount generation differs from the current
mount's generation, `getFilesChangedSince` fails with `OutOfRange` and returns
no delta data; when the generations match it does not fail for that reason. -/
theorem C6_generation_mismatch (gen : Nat) (latest : JournalDelta)
    (older : List JournalDelta) (pos : JournalPosition) :
    (pos.mountGeneration ≠ gen →
      EdenServiceHandler.getFilesChangedSince gen latest older pos =
        .error .outOfRange) ∧
    (pos.mountGeneration = gen →
      ∃ fd, EdenServiceHandler.getFilesChangedSince gen latest older pos = .ok fd) := by
  constructor
  · intro h
    simp [EdenServiceHandler.getFilesChangedSince, h]
  · intro h
    subst h
    unfold EdenServiceHandler.getFilesChangedSince
    rw [if_neg (by simp)]
    exact ⟨_, rfl⟩

/-- Witness for C6 at a concrete journal and cursor. -/
theorem C6_generation_mismatch_witness :
    (EdenServiceHandler.getFilesChangedSince 2 ⟨0, 1, [], [], ["a"]⟩ [] ⟨1, 0, []⟩ =
      .error .outOfRange) ∧
    (∃ fd, EdenServiceHandler.getFilesChangedSince 2 ⟨0, 1, [], [], ["a"]⟩ [] ⟨2, 0, []⟩ =
      .ok fd) :=
  ⟨(C6_generation_mismatch 2 ⟨0, 1, [], [], ["a"]⟩ [] ⟨1, 0, []⟩).1 (by decide),
   (C6_generation_mismatch 2 ⟨0, 1, [], [], ["a"]⟩ [] ⟨2, 0, []⟩).2 rfl⟩

/-- C7: writing to a file inode with no overlay file fails with
`InvalidArgument` (the C++ throws before touching any state); writing to a
materialized inode succeeds, invalidates the cached SHA-1
(`sha1Valid = false`) and updates the contents positionally. -/
theorem C7_write_invalidates_sha1 (st : FileData.State) (data : List Nat) (off : Nat) :
    (st.file = none → FileData.write st data off = .error .invalidArgument) ∧
    (∀ c, st.file = some c →
      FileData.write st data off =
        .ok ({ st with sha1Valid := false, file := some (pwriteBytes c off data) },
          data.length)) := by
  constructor
  · intro h
    simp [FileData.write, h]
  · intro c h
    simp [FileData.write, h]

/-- Witness for C7: an unmaterialized state is refused, a materialized one is
written with the cached SHA-1 invalidated. -/
theorem C7_write_invalidates_sha1_witness :
    (FileData.write ⟨some [1], none, none, none, true⟩ [72] 0 =
      .error .invalidArgument) ∧
    (FileData.write ⟨none, some [104, 10], some [0], none, true⟩ [72] 0 =
      .ok (⟨none, some [72, 10], some [0], none, false⟩, 1)) :=
  ⟨(C7_write_invalidates_sha1 ⟨some [1], none, none, none, true⟩ [72] 0).1 rfl,
   (C7_write_invalidates_sha1 ⟨none, some [104, 10], some [0], none, true⟩ [72] 0).2
     [104, 10] rfl⟩

/-- C8: reading an unmaterialized file inode backed by a blob of length `L` at
an offset `off ≥ L` returns an empty byte sequence, not an error; a read below
`L` returns the blob bytes from `off`, at most `size` of them. -/
theorem C8_read_past_eof (st : FileData.State) (bh b : List Nat) (size off : Nat)
    (hfile : st.file = none) (hblob : st.blob = some (bh, b)) :
    (b.length ≤ off → FileData.readIntoBuffer st size off = some []) ∧
    (off < b.length →
      FileData.readIntoBuffer st size off = some ((b.drop off).take size) ∧
      ((b.drop off).take size).length = min size (b.length - off)) := by
  unfold FileData.readIntoBuffer
  rw [hfile, hblob]
  constructor
  · intro h
    rcases Nat.lt_or_ge off b.length with hlt | hge
    · omega
    · rcases Nat.eq_or_lt_of_le hge with heq | hlt
      · have hb : ¬ b.length < off := by omega
        simp [hb, ← heq, List.drop_length]
      · simp [hlt]
  · intro h
    have hb : ¬ b.length < off := by omega
    simp [hb, List.length_take, List.length_drop]

/-- Witness for C8 on a 3-byte blob: a read at offset 3 (and 5) is empty, a
read at offset 1 returns the tail bytes. -/
theorem C8_read_past_eof_witness :
    (FileData.readIntoBuffer ⟨some [], none, none, some ([], [7, 8, 9]), false⟩ 10 3 =
      some []) ∧
    (FileData.readIntoBuffer ⟨some [], none, none, some ([], [7, 8, 9]), false⟩ 10 1 =
      some [8, 9]) :=
  ⟨(C8_read_past_eof ⟨some [], none, none, some ([], [7, 8, 9]), false⟩ [] [7, 8, 9]
      10 3 rfl rfl).1 (by decide),
   ((C8_read_past_eof ⟨some [], none, none, some ([], [7, 8, 9]), false⟩ [] [7, 8, 9]
      10 1 rfl rfl).2 (by decide)).1⟩

/-- C9: `listxattr` reports exactly `user.sha1` for an inode whose tree entry
is a regular file and the empty list otherwise (in particular for non-regular
entries and for inodes without a tree entry); `getxattr` yields the blob's
content SHA-1 only for the name `user.sha1` on a regular-file entry, and the
empty answer for any other name, file type, or an entry-less inode. -/
theorem C9_xattrs (store : ObjectStore) (entry : Option TreeEntry) (name : String) :
    (∀ e, entry = some e → e.fileType = .regularFile →
      TreeEntryFileInode.listxattr entry = [kXattrSha1]) ∧
    ((∀ e, entry = some e → e.fileType ≠ .regularFile) →
      TreeEntryFileInode.listxattr entry = []) ∧
    (∀ e b, entry = some e → e.fileType = .regularFile → store e.hash = some b →
      TreeEntryFileInode.getxattr store entry kXattrSha1 = some (sha1Bytes b)) ∧
    ((name ≠ kXattrSha1 ∨ (∀ e, entry = some e → e.fileType ≠ .regularFile)) →
      TreeEntryFileInode.getxattr store entry name = none) := by
  refine ⟨?_, ?_, ?_, ?_⟩
  · rintro e rfl hreg
    simp [TreeEntryFileInode.listxattr, hreg]
  · intro h
    cases entry with
    | none => rfl
    | some e => simp [TreeEntryFileInode.listxattr, h e rfl]
  · rintro e b rfl hreg hstore
    simp [TreeEntryFileInode.getxattr, hreg, ObjectStore.getSha1ForBlob, hstore]
  · intro h
    cases entry with
    | none => rfl
    | some e =>
      rcases h with hname | hreg
      · simp [TreeEntryFileInode.getxattr, hname]
      · simp [TreeEntryFileInode.getxattr, hreg e rfl]

/-- Witness for C9 at a concrete regular-file entry, directory entry and
absent entry. -/
theorem C9_xattrs_witness :
    (TreeEntryFileInode.listxattr (some ⟨[0], [97], .regularFile, 6⟩) =
      [kXattrSha1]) ∧
    (TreeEntryFileInode.listxattr (some ⟨[0], [97], .directory, 7⟩) = []) ∧
    (TreeEntryFileInode.getxattr (fun _ => some [104]) (some ⟨[0], [97], .regularFile, 6⟩)
      kXattrSha1 = some (sha1Bytes [104])) ∧
    (TreeEntryFileInode.getxattr (fun _ => some [104]) (some ⟨[0], [97], .regularFile, 6⟩)
      "user.other" = none) ∧
    (TreeEntryFileInode.getxattr (fun _ => some [104]) none kXattrSha1 = none) :=
  ⟨(C9_xattrs (fun _ => some [104]) (some ⟨[0], [97], .regularFile, 6⟩) kXattrSha1).1
      ⟨[0], [97], .regularFile, 6⟩ rfl rfl,
   (C9_xattrs (fun _ => some [104]) (some ⟨[0], [97], .directory, 7⟩) kXattrSha1).2.1
      (by intro e he; cases he; decide),
   (C9_xattrs (fun _ => some [104]) (some ⟨[0], [97], .regularFile, 6⟩) kXattrSha1).2.2.1
      ⟨[0], [97], .regularFile, 6⟩ [104] rfl rfl rfl,
   (C9_xattrs (fun _ => some [104]) (some ⟨[0], [97], .regularFile, 6⟩) "user.other").2.2.2
      (Or.inl (by decide)),
   (C9_xattrs (fun _ => some [104]) none kXattrSha1).2.2.2
      (Or.inr (by intro e he; cases he))⟩

/-- Translating the directive map fails with the Internal error whenever some
stored value is outside the recognized enum values. -/
theorem loadDirectives_rejects (ds : List (String × Nat))
    (h : ∃ pv ∈ ds, directiveOfValue pv.2 = none) :
    loadDirectives ds = .error .internalError := by
  induction ds with
  | nil => simp at h
  | cons pv rest ih =>
    obtain ⟨qv, hq, hbad⟩ := h
    rcases List.mem_cons.1 hq with rfl | hmem
    · unfold loadDirectives
      rw [hbad]
    · unfold loadDirectives
      cases hcase : directiveOfValue pv.2 with
      | none => rfl
      | some d => rw [ih ⟨qv, hmem, hbad⟩]; rfl

/-- Translating a directive map whose values are all recognized succeeds and
keeps every entry. -/
theorem loadDirectives_total (ds : List (String × Nat))
    (h : ∀ pv ∈ ds, (directiveOfValue pv.2).isSome) :
    ∃ es, loadDirectives ds = .ok es ∧ es.length = ds.length := by
  induction ds with
  | nil => exact ⟨[], rfl, rfl⟩
  | cons pv rest ih =>
    obtain ⟨es, hes, hlen⟩ := ih (fun qv hq => h qv (List.mem_cons_of_mem _ hq))
    have hhead := h pv (List.mem_cons_self _ _)
    cases hcase : directiveOfValue pv.2 with
    | none => rw [hcase] at hhead; simp at hhead
    | some d =>
      refine ⟨(pv.1, d) :: es, ?_, by simp [hlen]⟩
      unfold loadDirectives
      rw [hcase, hes]
      rfl

/-- C10: loading the dirstate when the storage file does not exist yields an
empty mapping rather than an error; any other read failure is an error; and a
stored directive value outside `{ADD, REMOVE}` makes the whole load fail with
an error instead of being silently dropped, while fully recognized contents
load completely. -/
theorem C10_dirstate_load (errno : Nat) (ds : List (String × Nat)) :
    DirstatePersistence.load (.readFailure kENOENT) = .ok [] ∧
    (errno ≠ kENOENT →
      DirstatePersistence.load (.readFailure errno) = .error (.ioError errno)) ∧
    ((∃ pv ∈ ds, directiveOfValue pv.2 = none) →
      DirstatePersistence.load (.contents ds) = .error .internalError) ∧
    ((∀ pv ∈ ds, (directiveOfValue pv.2).isSome) →
      ∃ es, DirstatePersistence.load (.contents ds) = .ok es ∧
        es.length = ds.length) := by
  refine ⟨rfl, ?_, ?_, ?_⟩
  · intro h
    simp [DirstatePersistence.load, h]
  · intro h
    exact loadDirectives_rejects ds h
  · intro h
    exact loadDirectives_total ds h

/-- Witness for C10: a missing file loads empty, errno 13 is surfaced, the
unrecognized value 2 rejects the load, and a recognized map loads in full. -/
theorem C10_dirstate_load_witness :
    DirstatePersistence.load (.readFailure kENOENT) = .ok [] ∧
    DirstatePersistence.load (.readFailure 13) = .error (.ioError 13) ∧
    DirstatePersistence.load (.contents [("a", 0), ("b", 2)]) =
      .error .internalError ∧
    (∃ es, DirstatePersistence.load (.contents [("a", 0), ("b", 1)]) = .ok es ∧
      es.length = 2) :=
  ⟨(C10_dirstate_load 13 []).1,
   (C10_dirstate_load 13 []).2.1 (by decide),
   (C10_dirstate_load 13 [("a", 0), ("b", 2)]).2.2.1 ⟨("b", 2), by decide, rfl⟩,
   (C10_dirstate_load 13 [("a", 0), ("b", 1)]).2.2.2 (by decide)⟩

/-- C3 (amended): the client assigns xids starting at 1, increasing by 1 per
request, and receives replies until one matches.  A reply whose xid lies in
the stale window `[requestXid - 5, requestXid)` — with the lower bound
computed in wrap-around 32-bit arithmetic, so that the window is "the last 5
xids" exactly when `requestXid ≥ 5` and is empty for smaller xids — is
discarded, for at most 5 such retries; any other mismatch is fatal.  For a
request with xid 7, a stale reply with xid 6 is discarded and the following
reply with xid 7 accepted, while a reply with xid 1 raises the Internal
error. -/
theorem C3_privhelper_xids (client : PrivHelperClient) (replies : List PrivMessage)
    (requestXid n : Nat) (m : PrivMessage) (rest : List PrivMessage) :
    PrivHelperClient.initial.nextXid = 1 ∧
    PrivHelper.sendAndRecv client replies =
      (⟨client.nextXid + 1⟩, client.nextXid,
        PrivHelper.recvLoop client.nextXid 0 replies) ∧
    (m.xid = requestXid →
      PrivHelper.recvLoop requestXid n (m :: rest) = .accepted m rest) ∧
    (m.xid < requestXid → u32sub5 requestXid ≤ m.xid → n < 5 →
      PrivHelper.recvLoop requestXid n (m :: rest) =
        PrivHelper.recvLoop requestXid (n + 1) rest) ∧
    (m.xid ≠ requestXid →
      ¬(m.xid < requestXid ∧ u32sub5 requestXid ≤ m.xid ∧ n < 5) →
      PrivHelper.recvLoop requestXid n (m :: rest) = .mismatchError m.xid) ∧
    (5 ≤ requestXid → requestXid < 4294967296 →
      u32sub5 requestXid = requestXid - 5) ∧
    PrivHelper.recvLoop 7 0 [⟨6, 0⟩, ⟨7, 0⟩] = .accepted ⟨7, 0⟩ [] ∧
    PrivHelper.recvLoop 7 0 [⟨1, 0⟩] = .mismatchError 1 := by
  refine ⟨rfl, rfl, ?_, ?_, ?_, ?_, by decide, by decide⟩
  · intro h
    simp [PrivHelper.recvLoop, h]
  · intro h1 h2 h3
    have hne : m.xid ≠ requestXid := Nat.ne_of_lt h1
    simp [PrivHelper.recvLoop, hne, h1, h2, h3]
  · intro h1 h2
    have : ¬(m.xid < requestXid && u32sub5 requestXid ≤ m.xid && n < 5) = true := by
      simpa [and_assoc] using h2
    simp only [PrivHelper.recvLoop, if_neg h1, if_neg this]
  · intro h1 h2
    unfold u32sub5
    omega

/-- Witness for C3 at the concrete scenario-5 exchange. -/
theorem C3_privhelper_xids_witness :
    PrivHelper.recvLoop 7 0 [⟨6, 0⟩, ⟨7, 0⟩] = .accepted ⟨7, 0⟩ [] ∧
    PrivHelper.recvLoop 7 1 [⟨7, 0⟩] = .accepted ⟨7, 0⟩ [] ∧
    PrivHelper.recvLoop 7 0 [⟨6, 0⟩, ⟨7, 0⟩] = PrivHelper.recvLoop 7 1 [⟨7, 0⟩] ∧
    PrivHelper.recvLoop 7 0 [⟨1, 0⟩] = .mismatchError 1 ∧
    u32sub5 7 = 2 :=
  ⟨(C3_privhelper_xids ⟨7⟩ [] 7 0 ⟨6, 0⟩ [⟨7, 0⟩]).2.2.2.2.2.2.1,
   (C3_privhelper_xids ⟨7⟩ [] 7 1 ⟨7, 0⟩ []).2.2.1 rfl,
   (C3_privhelper_xids ⟨7⟩ [] 7 0 ⟨6, 0⟩ [⟨7, 0⟩]).2.2.2.1 (by decide) (by decide)
     (by decide),
   (C3_privhelper_xids ⟨7⟩ [] 7 0 ⟨1, 0⟩ []).2.2.2.2.1 (by decide)
     (by decide),
   by
     have h := (C3_privhelper_xids ⟨7⟩ [] 7 0 ⟨1, 0⟩ []).2.2.2.2.2.1 (by decide)
       (by decide)
     simpa using h⟩

/-- Counterexample to C3 as stated: for the request with xid 3, the reply with
xid 2 is less than 3 and within the last 5 xids, yet the client raises the
fatal mismatch error instead of discarding it and accepting the following
reply with xid 3 (the C++ lower bound `requestXid - 5` wraps around in
`uint32_t` arithmetic). -/
theorem C3_privhelper_xids_counterexample :
    (2 < 3 ∧ 3 ≤ 2 + 5) ∧
    PrivHelper.recvLoop 3 0 [⟨2, 0⟩, ⟨3, 0⟩] = .mismatchError 2 := by decide

/-- Membership after inserting one path into the accumulated set. -/
theorem mem_insertPath {s : List String} {p q : String} :
    q ∈ insertPath s p ↔ q ∈ s ∨ q = p := by
  unfold insertPath
  split
  · rename_i h
    constructor
    · exact Or.inl
    · rintro (hq | rfl)
      · exact hq
      · exact h
  · simp [List.mem_append]

/-- Membership after inserting a batch of paths into the accumulated set. -/
theorem mem_insertPaths {ps : List String} {s : List String} {q : String} :
    q ∈ insertPaths s ps ↔ q ∈ s ∨ q ∈ ps := by
  induction ps generalizing s with
  | nil => simp [insertPaths]
  | cons p ps ih =>
    have step : insertPaths s (p :: ps) = insertPaths (insertPath s p) ps := rfl
    rw [step, ih, mem_insertPath]
    simp [List.mem_cons]
    tauto

/-- The paths accumulated by the delta walk are exactly the initial set plus
the changed paths of the traversed prefix: the deltas up to (excluding) the
first one with `toSequence ≤ S`. -/
theorem walkDeltas_paths (sNum gen : Nat) (ds : List JournalDelta)
    (acc : List String) (fp : JournalPosition) (q : String) :
    q ∈ (walkDeltas sNum gen ds acc fp).1 ↔
      q ∈ acc ∨ ∃ d, d ∈ ds.takeWhile (fun d => decide (sNum < d.toSequence)) ∧
        q ∈ d.changedFilesInOverlay := by
  induction ds generalizing acc fp with
  | nil => simp [walkDeltas]
  | cons d rest ih =>
    unfold walkDeltas
    split
    · rename_i h
      have hstop : (decide (sNum < d.toSequence)) = false := by
        simp
        omega
      simp [List.takeWhile_cons, hstop]
    · rename_i h
      have hgo : (decide (sNum < d.toSequence)) = true := by
        simp
        omega
      rw [ih, mem_insertPaths]
      simp only [List.takeWhile_cons, hgo, if_true, List.mem_cons]
      constructor
      · rintro ((hq | hq) | ⟨e, he, hq⟩)
        · exact Or.inl hq
        · exact Or.inr ⟨d, Or.inl rfl, hq⟩
        · exact Or.inr ⟨e, Or.inr he, hq⟩
      · rintro (hq | ⟨e, (rfl | he), hq⟩)
        · exact Or.inl (Or.inl hq)
        · exact Or.inl (Or.inr hq)
        · exact Or.inr ⟨e, he, hq⟩

/-- C5: with a cursor of the current generation at sequence `S`, the handler
walks the delta list from the latest delta back to (excluding) the first delta
with `toSequence ≤ S` and returns the union of the changed paths of the
traversed deltas.  In the scenario-6 journal (deltas `{a}`, `{b}`, `{a, c}`),
a cursor at sequence 0 sees the set `{a, b, c}` with `from_sequence = 0` and
`to_sequence = 3`. -/
theorem C5_files_changed_since (gen : Nat) (latest : JournalDelta)
    (older : List JournalDelta) (pos : JournalPosition)
    (hgen : pos.mountGeneration = gen) :
    (∃ fd, EdenServiceHandler.getFilesChangedSince gen latest older pos = .ok fd ∧
      ∀ q, q ∈ fd.paths ↔
        ∃ d, d ∈ (latest :: older).takeWhile
            (fun d => decide (pos.sequenceNumber < d.toSequence)) ∧
          q ∈ d.changedFilesInOverlay) ∧
    (∃ fd, EdenServiceHandler.getFilesChangedSince 1 journalC5Latest journalC5Older
        ⟨1, 0, []⟩ = .ok fd ∧
      fd.fromPosition.sequenceNumber = 0 ∧ fd.toPosition.sequenceNumber = 3 ∧
      fd.paths.Perm ["a", "b", "c"]) := by
  constructor
  · subst hgen
    unfold EdenServiceHandler.getFilesChangedSince
    rw [if_neg (by simp)]
    refine ⟨_, rfl, ?_⟩
    intro q
    rw [walkDeltas_paths]
    simp
  · exact ⟨⟨⟨1, 0, []⟩, ⟨1, 3, []⟩, ["a", "c", "b"]⟩, by decide, rfl, rfl, by decide⟩

/-- Witness for C5 at the concrete scenario-6 journal and a cursor at
sequence 0 of generation 1. -/
theorem C5_files_changed_since_witness :
    ∃ fd, EdenServiceHandler.getFilesChangedSince 1 journalC5Latest journalC5Older
        ⟨1, 0, []⟩ = .ok fd ∧
      fd.fromPosition.sequenceNumber = 0 ∧ fd.toPosition.sequenceNumber = 3 ∧
      fd.paths.Perm ["a", "b", "c"] :=
  (C5_files_changed_since 1 journalC5Latest journalC5Older ⟨1, 0, []⟩ rfl).2

/-- C1: starting from any unmaterialized file inode referencing a blob with
contents `"hello\n"`, opening with write intent, writing `"HELLO"` at offset 0
and closing leaves an overlay file with contents `"HELLO\n"`, the `user.sha1`
xattr equal to `sha1("HELLO\n")`, the source hash cleared (materialized state
with an overlay handle), and one new journal delta whose changed paths contain
the path to the inode. -/
theorem C1_materialize_on_write (store : ObjectStore) (h : List Nat)
    (st : FileData.State) (j : List JournalDelta) (path : String)
    (fromH toH : List Nat)
    (hhash : st.hash = some h) (hfile : st.file = none) (hblob : st.blob = none)
    (hstore : store h = some (asciiBytes "hello\n")) :
    ∃ st' d, openWriteClose store st (asciiBytes "HELLO") 0 j path fromH toH =
        some (st', d :: j) ∧
      st'.file = some (asciiBytes "HELLO\n") ∧
      st'.xattrSha1 = some (sha1Bytes (asciiBytes "HELLO\n")) ∧
      st'.hash = none ∧ st'.blob = none ∧ st'.sha1Valid = true ∧
      path ∈ d.changedFilesInOverlay := by
  have hpw : pwriteBytes (asciiBytes "hello\n") 0 (asciiBytes "HELLO") =
      asciiBytes "HELLO\n" := by decide
  refine ⟨⟨none, some (asciiBytes "HELLO\n"),
      some (sha1Bytes (asciiBytes "HELLO\n")), none, true⟩,
    ⟨(match j with | [] => 0 | d :: _ => d.toSequence),
     (match j with | [] => 0 | d :: _ => d.toSequence) + 1, fromH, toH, [path]⟩,
    ?_, rfl, rfl, rfl, rfl, rfl, ?_⟩
  · simp [openWriteClose, FileData.materializeForWrite, hfile, hhash, hstore,
      FileData.write, FileData.flush, FileData.storeSha1, hpw, Journal.record]
  · simp

/-- Witness for C1 at a concrete store, blob id, journal and path. -/
theorem C1_materialize_on_write_witness :
    ∃ st' d, openWriteClose storeC1 stateC1 (asciiBytes "HELLO") 0 [] "f" [] [] =
        some (st', d :: []) ∧
      st'.file = some (asciiBytes "HELLO\n") ∧
      st'.xattrSha1 = some (sha1Bytes (asciiBytes "HELLO\n")) ∧
      st'.hash = none ∧ st'.blob = none ∧ st'.sha1Valid = true ∧
      "f" ∈ d.changedFilesInOverlay :=
  C1_materialize_on_write storeC1 blobIdC1 stateC1 [] "f" [] [] rfl rfl rfl
    (by decide)

/-- Splitting at `sep` undoes appending a separator after bytes free of it. -/
theorem splitByte_append (sep : Nat) (pre post : List Nat)
    (h : ∀ b ∈ pre, b ≠ sep) :
    splitByte sep (pre ++ sep :: post) = some (pre, post) := by
  induction pre with
  | nil => simp [splitByte]
  | cons b bs ih =>
    have hb : b ≠ sep := h b (List.mem_cons_self _ _)
    have ihh := ih (fun x hx => h x (List.mem_cons_of_mem _ hx))
    simp [splitByte, hb, ihh]

/-- Folding base-10 accumulation over reversed digits computes `ofDigits`. -/
theorem foldl_base10 (l : List Nat) (a : Nat) :
    List.foldl (fun acc d => acc * 10 + d) a l.reverse =
      a * 10 ^ l.length + Nat.ofDigits 10 l := by
  induction l generalizing a with
  | nil => simp [Nat.ofDigits]
  | cons d t ih =>
    rw [List.reverse_cons, List.foldl_append, ih]
    simp only [List.foldl_cons, List.foldl_nil, Nat.ofDigits_cons, List.length_cons]
    ring

/-- With enough fuel, `decDigitsRev` computes `Nat.digits 10`. -/
theorem decDigitsRev_eq (fuel n : Nat) (h : n ≤ fuel) :
    decDigitsRev fuel n = Nat.digits 10 n := by
  induction fuel generalizing n with
  | zero =>
    have : n = 0 := by omega
    subst this
    simp [decDigitsRev]
  | succ f ih =>
    unfold decDigitsRev
    by_cases hn : n = 0
    · simp [hn]
    · have hpos := Nat.pos_of_ne_zero hn
      have hdiv : n / 10 < n := Nat.div_lt_self hpos (by norm_num)
      rw [if_neg hn, Nat.digits_def' (by norm_num : 1 < 10) hpos,
        ih (n / 10) (by omega)]

/-- Parsing the decimal representation recovers the number. -/
theorem parseDecimal_decimalBytes (n : Nat) :
    parseDecimal (decimalBytes n) = n := by
  by_cases h : n = 0
  · subst h; rfl
  · unfold parseDecimal decimalBytes
    rw [if_neg h, decDigitsRev_eq n n (Nat.le_refl n), List.foldl_map]
    simp only [Nat.add_sub_cancel]
    rw [foldl_base10]
    simp [Nat.ofDigits_digits]

/-- Every byte of a decimal representation is an ASCII digit. -/
theorem decimalBytes_digits (n b : Nat) (h : b ∈ decimalBytes n) :
    48 ≤ b ∧ b ≤ 57 := by
  unfold decimalBytes at h
  rw [decDigitsRev_eq n n (Nat.le_refl n)] at h
  split at h
  · simp at h
    omega
  · obtain ⟨d, hd, rfl⟩ := List.mem_map.1 h
    have : d < 10 := Nat.digits_lt_base (by norm_num) (List.mem_reverse.1 hd)
    omega

/-- A decimal representation is never empty. -/
theorem decimalBytes_ne_nil (n : Nat) : decimalBytes n ≠ [] := by
  unfold decimalBytes
  rw [decDigitsRev_eq n n (Nat.le_refl n)]
  split
  · simp
  · rename_i h
    simp [Nat.digits_ne_nil_iff_ne_zero.2 h]

/-- A recognized mode string maps back to the entry type and perms that
produced it. -/
theorem modeOfBytes_modeBytes (ft : FileType) (p : Nat) (mb : List Nat)
    (h : modeBytes ft p = some mb) : modeOfBytes mb = some (ft, p) := by
  unfold modeBytes at h
  split_ifs at h with h1 h2 h3 h4 <;> cases h
  · obtain ⟨rfl, rfl⟩ := h1
    decide
  · obtain ⟨rfl, rfl⟩ := h2
    decide
  · obtain ⟨rfl, rfl⟩ := h3
    decide
  · obtain ⟨rfl, rfl⟩ := h4
    decide

/-- Every byte of a recognized mode string is an octal digit character, in
particular neither a space nor a `NUL`. -/
theorem modeBytes_octal (ft : FileType) (p : Nat) (mb : List Nat)
    (h : modeBytes ft p = some mb) : ∀ b ∈ mb, 48 ≤ b ∧ b ≤ 55 := by
  unfold modeBytes at h
  split_ifs at h <;> cases h <;> decide

/-- A recognized mode string is nonempty. -/
theorem modeBytes_ne_nil (ft : FileType) (p : Nat) (mb : List Nat)
    (h : modeBytes ft p = some mb) : mb ≠ [] := by
  unfold modeBytes at h
  split_ifs at h <;> cases h <;> decide

/-- One serialized entry occupies at least one byte. -/
theorem serializeEntry_length_pos (e : TreeEntry) :
    0 < (serializeEntry e).length := by
  simp [serializeEntry]

/-- Unfolding of `parseEntries` at positive fuel and nonempty input. -/
theorem parseEntries_succ (f : Nat) (bytes : List Nat) (hb : bytes ≠ []) :
    parseEntries (f + 1) bytes =
      match splitSpace bytes with
      | none => none
      | some (modeB, rest1) =>
        match modeOfBytes modeB with
        | none => none
        | some (ft, perms) =>
          match splitNul rest1 with
          | none => none
          | some (name, rest2) =>
            if rest2.length < 20 then none
            else
              match parseEntries f (rest2.drop 20) with
              | none => none
              | some es => some (⟨rest2.take 20, name, ft, perms⟩ :: es) := by
  cases bytes with
  | nil => exact absurd rfl hb
  | cons b bs => rfl

/-- Parsing undoes the concatenated serialization of valid entries. -/
theorem parseEntries_cat (es : List TreeEntry)
    (hv : ∀ e ∈ es, validEntry e = true) :
    ∀ fuel, (catEntryBytes es).length ≤ fuel →
      parseEntries fuel (catEntryBytes es) = some es := by
  induction es with
  | nil =>
    intro fuel _
    cases fuel <;> rfl
  | cons e es ih =>
    intro fuel hfuel
    have hve := hv e (List.mem_cons_self _ _)
    simp only [validEntry, Bool.and_eq_true, beq_iff_eq, List.all_eq_true,
      decide_eq_true_eq] at hve
    obtain ⟨⟨⟨⟨h20, _h256⟩, _hnne⟩, hnameb⟩, hmode⟩ := hve
    obtain ⟨mb, hmb⟩ := Option.isSome_iff_exists.1 hmode
    have hname0 : ∀ b ∈ e.name, b ≠ 0 := fun b hb => ((hnameb b hb).1).1
    have hcatlen : (catEntryBytes (e :: es)).length =
        (serializeEntry e).length + (catEntryBytes es).length := by
      simp [catEntryBytes]
    cases fuel with
    | zero =>
      exfalso
      have := serializeEntry_length_pos e
      omega
    | succ f =>
      have hX : catEntryBytes (e :: es) =
          mb ++ 32 :: (e.name ++ 0 :: (e.hash ++ catEntryBytes es)) := by
        simp [catEntryBytes, serializeEntry, hmb]
      rw [hX, parseEntries_succ f _ (by simp)]
      have hmodeb := modeBytes_octal _ _ _ hmb
      have hsp : splitSpace
          (mb ++ 32 :: (e.name ++ 0 :: (e.hash ++ catEntryBytes es))) =
          some (mb, e.name ++ 0 :: (e.hash ++ catEntryBytes es)) := by
        unfold splitSpace
        exact splitByte_append 32 _ _ (fun b hb => by have := hmodeb b hb; omega)
      have hsn : splitNul (e.name ++ 0 :: (e.hash ++ catEntryBytes es)) =
          some (e.name, e.hash ++ catEntryBytes es) := by
        unfold splitNul
        exact splitByte_append 0 _ _ hname0
      have hlen20 : ¬ (e.hash ++ catEntryBytes es).length < 20 := by
        simp [List.length_append, h20]
      have htake : (e.hash ++ catEntryBytes es).take 20 = e.hash := by
        rw [← h20]
        exact List.take_left _ _
      have hdrop : (e.hash ++ catEntryBytes es).drop 20 = catEntryBytes es := by
        rw [← h20]
        exact List.drop_left _ _
      have hrec : parseEntries f (catEntryBytes es) = some es := by
        apply ih (fun x hx => hv x (List.mem_cons_of_mem _ hx))
        have := serializeEntry_length_pos e
        omega
      simp only [hsp, modeOfBytes_modeBytes _ _ _ hmb, hsn, if_neg hlen20, hdrop,
        hrec, htake]

/-- Deserializing the serializer's output recovers the entries, in the tree
order the serializer establishes. -/
theorem deserialize_serialize (es : List TreeEntry)
    (hv : ∀ e ∈ es, validEntry e = true) :
    deserializeGitTree (serializeGitTree es) =
      .ok (List.insertionSort TreeEntry.le es) := by
  have hvs : ∀ e ∈ List.insertionSort TreeEntry.le es, validEntry e = true :=
    fun e he => hv e ((List.mem_insertionSort _).1 he)
  set body := catEntryBytes (List.insertionSort TreeEntry.le es) with hbody
  have hser : serializeGitTree es =
      asciiBytes "tree " ++ (decimalBytes body.length ++ 0 :: body) := by
    simp [serializeGitTree, ← hbody, List.append_assoc]
  rw [hser]
  unfold deserializeGitTree
  have h5 : (5 : Nat) = (asciiBytes "tree ").length := rfl
  have htake : (asciiBytes "tree " ++ (decimalBytes body.length ++ 0 :: body)).take 5 =
      asciiBytes "tree " := by
    rw [h5]
    exact List.take_left _ _
  have hdrop : (asciiBytes "tree " ++ (decimalBytes body.length ++ 0 :: body)).drop 5 =
      decimalBytes body.length ++ 0 :: body := by
    rw [h5]
    exact List.drop_left _ _
  rw [htake, hdrop, if_neg (fun h => h rfl)]
  have hsn : splitNul (decimalBytes body.length ++ 0 :: body) =
      some (decimalBytes body.length, body) := by
    unfold splitNul
    exact splitByte_append 0 _ _
      (fun b hb => by have := decimalBytes_digits _ b hb; omega)
  rw [hsn]
  have h1 : (decimalBytes body.length).isEmpty = false := by
    simpa [List.isEmpty_iff] using decimalBytes_ne_nil body.length
  have h2 : (decimalBytes body.length).all isDecDigit = true := by
    rw [List.all_eq_true]
    intro b hb
    have := decimalBytes_digits _ b hb
    simp only [isDecDigit, Bool.and_eq_true, decide_eq_true_eq]
    omega
  have hparse := parseEntries_cat _ hvs body.length (Nat.le_refl _)
  simp [hsn, h1, h2, parseDecimal_decimalBytes, hparse]

set_option maxRecDepth 10000000 in
/-- C2 (amended): for every sequence of valid tree entries already sorted by
the git tree ordering (the entries of a valid tree object), serializing and
deserializing recovers exactly the same entries in the same order; the
serializer reorders any other sequence into tree order.  The 5-entry tree of
scenario 2 serializes to bytes whose SHA-1 is
`013b7865a6da317bc8d82c7225eb93615f1b1eca` — the tree's object hash — and
deserializes back to the same 5 entries in order. -/
theorem C2_git_tree_roundtrip (es : List TreeEntry)
    (hv : ∀ e ∈ es, validEntry e = true) (hs : List.Sorted TreeEntry.le es) :
    deserializeGitTree (serializeGitTree es) = .ok es ∧
    sha1Bytes (serializeGitTree scenario2Entries) = scenario2Hash ∧
    deserializeGitTree (serializeGitTree scenario2Entries) =
      .ok scenario2Entries := by
  refine ⟨?_, by decide, by decide⟩
  rw [deserialize_serialize es hv, hs.insertionSort_eq]

set_option maxRecDepth 10000000 in
/-- Witness for C2 at the scenario-2 entries. -/
theorem C2_git_tree_roundtrip_witness :
    deserializeGitTree (serializeGitTree scenario2Entries) =
      .ok scenario2Entries ∧
    sha1Bytes (serializeGitTree scenario2Entries) = scenario2Hash :=
  ⟨(C2_git_tree_roundtrip scenario2Entries (by decide) (by decide)).1,
   (C2_git_tree_roundtrip scenario2Entries (by decide) (by decide)).2.1⟩

set_option maxRecDepth 10000000 in
/-- Counterexample to C2 as stated: the two valid entries `apm-rest-api.md`
and `README.md` listed out of tree order serialize and deserialize to the
same entries in the opposite (sorted) order, not the original order. -/
theorem C2_git_tree_roundtrip_counterexample :
    (∀ e ∈ [entryApmRestApi, entryReadme], validEntry e = true) ∧
    deserializeGitTree (serializeGitTree [entryApmRestApi, entryReadme]) =
      .ok [entryReadme, entryApmRestApi] ∧
    ([entryReadme, entryApmRestApi] : List TreeEntry) ≠
      [entryApmRestApi, entryReadme] := by
  refine ⟨by decide, by decide, by decide⟩

set_option maxRecDepth 10000000 in
/-- C4: deserialization succeeds on every well-formed tree object (the
serialization of valid entries), and fails with `MalformedObject` on each
deviation exercised by `GitTreeTest.cpp:testBadDeserialize`: truncated
headers, a length mismatch, truncation after a mode, a missing NUL after the
name, a missing hash, a non-octal mode digit, a trailing byte after the last
hash — plus an octal mode outside the recognized set. -/
theorem C4_deserialize_rejects_malformed (es : List TreeEntry)
    (hv : ∀ e ∈ es, validEntry e = true) :
    (∃ out, deserializeGitTree (serializeGitTree es) = .ok out) ∧
    deserializeGitTree (asciiBytes "tre") = .error .malformedObject ∧
    deserializeGitTree (asciiBytes "tree ") = .error .malformedObject ∧
    deserializeGitTree (asciiBytes "tree 123") = .error .malformedObject ∧
    deserializeGitTree (asciiBytes "tree 123" ++ [0]) = .error .malformedObject ∧
    deserializeGitTree (asciiBytes "tree 6" ++ [0] ++ asciiBytes "100644") =
      .error .malformedObject ∧
    deserializeGitTree (asciiBytes "tree 22" ++ [0] ++
      asciiBytes "100644 apm-rest-api.md") = .error .malformedObject ∧
    deserializeGitTree (asciiBytes "tree 23" ++ [0] ++
      asciiBytes "100644 apm-rest-api.md" ++ [0]) = .error .malformedObject ∧
    deserializeGitTree (asciiBytes "tree 43" ++ [0] ++
      asciiBytes "100694 apm-rest-api.md" ++ [0] ++
      hexBytes "a3c8e5c25e5523322f0ea490173dbdc1d844aefb") =
      .error .malformedObject ∧
    deserializeGitTree (asciiBytes "tree 44" ++ [0] ++
      asciiBytes "100644 apm-rest-api.md" ++ [0] ++
      hexBytes "a3c8e5c25e5523322f0ea490173dbdc1d844aefb" ++ [0]) =
      .error .malformedObject ∧
    deserializeGitTree (asciiBytes "tree 43" ++ [0] ++
      asciiBytes "100600 apm-rest-api.md" ++ [0] ++
      hexBytes "a3c8e5c25e5523322f0ea490173dbdc1d844aefb") =
      .error .malformedObject :=
  ⟨⟨_, deserialize_serialize es hv⟩, by decide⟩

set_option maxRecDepth 10000000 in
/-- Witness for C4 at the scenario-2 entries and the empty tree. -/
theorem C4_deserialize_rejects_malformed_witness :
    (∃ out, deserializeGitTree (serializeGitTree scenario2Entries) = .ok out) ∧
    (∃ out, deserializeGitTree (serializeGitTree []) = .ok out) :=
  ⟨(C4_deserialize_rejects_malformed scenario2Entries (by decide)).1,
   (C4_deserialize_rejects_malformed [] (by decide)).1⟩
